import Mathlib

/-
Shallow embedding of the plus-minus-equal quiz server (src/server.py).

Python dicts are modelled as insertion-ordered association lists with
unique keys (`dictSet` updates in place or appends; `dictDel` removes the
key).  The asyncio event loop is modelled explicitly: a `Sys` state holds
the global `Game` and `DB` dataclasses, the list of pending (not yet run,
not cancelled) scheduled coroutines, and a log of broadcast/send calls.
A coroutine body that runs without awaiting anything that can interleave
is executed atomically by one scheduler step; the two real suspension
points that allow interleaving (the sleeps inside `proceed_game` before
the question is published, and the `asyncio.sleep(0.5)` inside
`stop_game`) are modelled by keeping the not-yet-run remainder of the
coroutine in the pending-task list (`TaskBody`).  `random.randint` /
`random.choice` draws are supplied by oracle parameters.
-/

namespace PlusMinus

/-- Association-list model of a Python dict keyed by `κ`. -/
abbrev Dict (κ : Type) (α : Type) := List (κ × α)

/-- Membership test for a key, as Python `k in d`. -/
def dictHas [BEq κ] (d : Dict κ α) (k : κ) : Bool :=
  d.any (fun p => p.1 == k)

/-- Lookup, as Python `d[k]` (first binding of the key). -/
def dictGet? [BEq κ] (d : Dict κ α) (k : κ) : Option α :=
  (d.find? (fun p => p.1 == k)).map (fun p => p.2)

/-- Lookup with a default value. -/
def dictGetD [BEq κ] (d : Dict κ α) (k : κ) (v : α) : α :=
  (dictGet? d k).getD v

/-- Assignment, as Python `d[k] = v`: update in place, else append. -/
def dictSet [BEq κ] (d : Dict κ α) (k : κ) (v : α) : Dict κ α :=
  if dictHas d k then d.map (fun p => if p.1 == k then (k, v) else p)
  else d ++ [(k, v)]

/-- Deletion, as Python `del d[k]`. -/
def dictDel [BEq κ] (d : Dict κ α) (k : κ) : Dict κ α :=
  d.filter (fun p => !(p.1 == k))

/-- The keys of the association list are pairwise distinct (a real dict). -/
abbrev NodupKeys (d : Dict String Int) : Prop :=
  d.Pairwise (fun a b => a.1 ≠ b.1)

/-- ASCII whitespace recognized by Python `str.split()` / `str.strip()`
on the command strings of this server. -/
def isWsChar (c : Char) : Bool :=
  c == ' ' || c == '\t' || c == '\n' || c == '\r'

/-- Split a character list at every separator character (keeping empty
chunks, as Python `str.split(sep)` does). -/
def splitListAux (p : Char → Bool) : List Char → List Char → List (List Char)
  | [], acc => [acc.reverse]
  | c :: cs, acc =>
    if p c then acc.reverse :: splitListAux p cs []
    else splitListAux p cs (c :: acc)

/-- Python `str.split()` with no argument: split on whitespace runs,
dropping empty chunks. -/
def splitWs (s : String) : List String :=
  ((splitListAux isWsChar s.data []).map (fun cs => String.mk cs)).filter
    (fun t => !(t == ""))

/-- Strip leading and trailing whitespace, as Python `str.strip()`. -/
def trimL (cs : List Char) : List Char :=
  ((cs.dropWhile isWsChar).reverse.dropWhile isWsChar).reverse

/-- Prefix test on character lists. -/
def prefixL : List Char → List Char → Bool
  | [], _ => true
  | _ :: _, [] => false
  | a :: as, b :: bs => a == b && prefixL as bs

/-- Python `str.startswith(pre)`. -/
def strStartsWith (s pre : String) : Bool :=
  prefixL pre.data s.data

/-- Value of a nonempty all-digit character list, else `none`. -/
def digitsVal? (cs : List Char) : Option Nat :=
  if cs ≠ [] ∧ cs.all Char.isDigit then
    some (cs.foldl (fun a c => a * 10 + (c.toNat - 48)) 0)
  else none

/-- Python `int(s)` on ASCII input: strip whitespace, optional sign,
decimal digits; `none` models the `ValueError`. -/
def pyInt? (s : String) : Option Int :=
  match trimL s.data with
  | '-' :: rest => (digitsVal? rest).map (fun n => -(n : Int))
  | '+' :: rest => (digitsVal? rest).map (fun n => (n : Int))
  | cs => (digitsVal? cs).map (fun n => (n : Int))

/-- Stable insertion of one entry into a descending-by-score list; ties
keep the already-present element first, as Python's stable `sorted`. -/
def insortDesc (x : String × Int) : List (String × Int) → List (String × Int)
  | [] => [x]
  | y :: ys => if y.2 ≤ x.2 then x :: y :: ys else y :: insortDesc x ys

/-- Python `sorted(key=lambda x: x[-1], reverse=True)`: stable sort,
descending by score. -/
def pySortDesc (l : List (String × Int)) : List (String × Int) :=
  l.foldr insortDesc []

/-- One user record of `db.users`: `{"active": ..., "foreground": ...,
"background": ...}`. -/
structure UserInfo where
  active : Bool
  foreground : String := ""
  background : String := ""
deriving DecidableEq

/-- The `Game` dataclass with its field defaults. -/
structure Game where
  active : Bool := false
  check_answer : Bool := false
  stopping : Bool := false
  tot_q : Int := 0
  cur_q : Int := 0
  solved : Bool := false
  question : String := ""
  answer : Int := 0
  score : Int := 0
  difficulty : String := "easy"
  bound : Int × Int := (0, 0)
  count_down_time : Int := 3
  interval_time : Int := 10
  user_score : Dict String Int := []
  cur_game : Option Nat := none
deriving DecidableEq

/-- The `DB` dataclass: users, leaderboard (source spelling kept) and the
connection registry; connections are opaque `Nat` handles. -/
structure DB where
  users : Dict String UserInfo := []
  leaderboad : List (String × Int) := []
  conn : Dict Nat String := []
deriving DecidableEq

/-- One observable output of the server: a `broadcast` to every
registered connection or a direct `ws.send`. -/
inductive Out where
  | bcast (target : String) (payload : String) (color : Option String)
  | bcastBoard (board : List (String × Int))
  | bcastPalette (palette : List (String × String × String))
  | send (ws : Nat) (target : String) (payload : String)
  | sendBoard (ws : Nat) (board : List (String × Int))
  | sendPalette (ws : Nat) (palette : List (String × String × String))
deriving DecidableEq

/-- The remainder of a scheduled coroutine that has not run yet:
a fresh `check_to_proceed` task, a `proceed_game` task that has not yet
published its question (it is inside its sleeps), or the part of
`stop_game` after its `asyncio.sleep(0.5)` with the captured
`score_board`. -/
inductive TaskBody where
  | check_to_proceed
  | proceed_game
  | stop_resume (score_board : List (String × Int))
deriving DecidableEq

/-- Whole-server state: the two globals, the pending tasks of the event
loop, the id counter for created tasks, and the output log. -/
structure Sys where
  game : Game := {}
  db : DB := {}
  tasks : List (Nat × TaskBody) := []
  nextId : Nat := 0
  out : List Out := []
deriving DecidableEq

deriving instance DecidableEq for Except

/-- Fresh server state: `game = Game()`, `db = DB()`. -/
def initSys : Sys := {}

/-- `announce`: broadcast a message-target envelope, payload
`f"{name}: {message}"` when a name is given, color = name. -/
def announce (s : Sys) (message : String) (name : Option String) : Sys :=
  { s with out := s.out ++
      [Out.bcast "message"
        (match name with
         | some n => n ++ ": " ++ message
         | none => message) name] }

/-- `server_announce`: announce in the reserved SERVER identity. -/
def server_announce (s : Sys) (message : String) : Sys :=
  announce s message (some "SERVER")

/-- The two difficulty lookup dicts of `start_game` (same key set, so one
lookup is faithful): operand bound and per-correct score. -/
def difficultyTable : String → Option ((Int × Int) × Int)
  | "easy" => some ((0, 100), 10)
  | "medium" => some ((-100, 100), 20)
  | "hard" => some ((-1000, 1000), 30)
  | _ => none

/-- `start_game(command)`.  The source assigns `game.tot_q` BEFORE the
`tot_q < 1` check and before the difficulty lookup, so a raised
`ValueError`/`KeyError` can leave `tot_q` mutated: the `.error` value is
the (possibly partially mutated) game visible to the caller's bare
`except`. -/
def start_game (db : DB) (g : Game) (command : String) : Except Game Game :=
  match splitWs command with
  | [_, difficulty, num_q] =>
    match pyInt? num_q with
    | none => Except.error g
    | some n =>
      let g1 := { g with tot_q := n }
      if n < 1 then Except.error g1
      else
        match difficultyTable difficulty with
        | none => Except.error g1
        | some bs =>
          Except.ok { g1 with
            bound := bs.1
            score := bs.2
            difficulty := difficulty
            cur_q := 0
            user_score := (db.users.filter (fun p => p.2.active)).map
              (fun p => (p.1, (0 : Int)))
            active := true }
  | _ => Except.error g

/-- The left fold body of `update_leaderboard`'s first loop: an existing
board entry absorbs (and deletes) the round score of its user. -/
def mergeStep (acc : List (String × Int) × Dict String Int)
    (e : String × Int) : List (String × Int) × Dict String Int :=
  match dictGet? acc.2 e.1 with
  | some v => (acc.1 ++ [(e.1, e.2 + v)], dictDel acc.2 e.1)
  | none => (acc.1 ++ [e], acc.2)

/-- Pure core of `update_leaderboard(scores)`: returns the new sorted
board and the mutated `scores` dict (the source deletes absorbed users
from the dict it was passed, which aliases `game.user_score`). -/
def update_leaderboard (board : List (String × Int))
    (scores : Dict String Int) : List (String × Int) × Dict String Int :=
  let p := board.foldl mergeStep ([], scores)
  (pySortDesc (p.1 ++ p.2), p.2)

/-- `update_leaderboard(game.user_score)` as invoked by `stop_game`,
including the broadcasts and the aliasing write-back into
`game.user_score`. -/
def run_update_leaderboard (s : Sys) : Sys :=
  let r := update_leaderboard s.db.leaderboad s.game.user_score
  let s := { s with db.leaderboad := r.1, game.user_score := r.2 }
  let s := { s with out := s.out ++ [Out.bcastBoard r.1] }
  server_announce s "The leaderboard has been updated!"

/-- `reset_leaderboard()`. -/
def reset_leaderboard (s : Sys) : Sys :=
  let s := { s with db.leaderboad := [] }
  let s := { s with out := s.out ++ [Out.bcastBoard []] }
  server_announce s "The leaderboard has been reset!"

/-- `asyncio.create_task(...)` followed by the `game.cur_game = ...`
assignment present at both creation sites. -/
def spawn (s : Sys) (b : TaskBody) : Sys :=
  { s with
    tasks := s.tasks ++ [(s.nextId, b)]
    nextId := s.nextId + 1
    game.cur_game := some s.nextId }

/-- Remove a cancelled task from the pending list. -/
def cancelTask (tasks : List (Nat × TaskBody)) (h : Option Nat) :
    List (Nat × TaskBody) :=
  match h with
  | some tid => tasks.filter (fun t => !(t.1 == tid))
  | none => tasks

/-- `if game.cur_game is not None and not game.cur_game.done():
game.cur_game.cancel()` — a completed task is no longer pending, so
filtering the pending list is exactly this conditional cancel. -/
def cancelCur (s : Sys) : Sys :=
  { s with tasks := cancelTask s.tasks s.game.cur_game }

/-- The `"\n".join` scoreboard column built by `stop_game`. -/
def scoreColumn (board : List (String × Int)) : String :=
  String.intercalate "\n"
    (board.enum.map (fun p =>
      "     " ++ toString (p.1 + 1) ++ ". " ++ p.2.1 ++ " - " ++
        toString p.2.2 ++ " points"))

/-- `stop_game()` up to its only suspension point.  With more than one
round participant the source awaits `asyncio.sleep(0.5)` before the
winner announcement; the remainder is parked as a `stop_resume` pending
task (capturing `score_board`, which the source computed before the
sleep). -/
def stop_game (s : Sys) : Sys :=
  let s := { s with
    game.check_answer := false
    game.active := false
    game.stopping := true }
  let s := cancelCur s
  let s := server_announce s "Game has ended !!!"
  let us := s.game.user_score
  if us.length = 1 then
    { server_announce s
        ("Your total score is " ++ toString (us.headD ("", 0)).2 ++ " 👍")
      with game.stopping := false }
  else if 1 < us.length then
    let score_board := pySortDesc us
    let s := server_announce s
      ("Here is the scoreboard of this round!\n" ++ scoreColumn score_board)
    { s with
      tasks := s.tasks ++ [(s.nextId, TaskBody.stop_resume score_board)]
      nextId := s.nextId + 1 }
  else
    { s with game.stopping := false }

/-- The remainder of `stop_game()` after the `asyncio.sleep(0.5)`:
winner or tie announcement, the sum-positive merge (which reads the
CURRENT `game.user_score`, not the captured board), and
`game.stopping = False`. -/
def stop_resume_run (s : Sys) (score_board : List (String × Int)) : Sys :=
  let top0 := score_board.headD ("", 0)
  let top1 := (score_board.drop 1).headD ("", 0)
  let s :=
    if top1.2 < top0.2 then server_announce s (top0.1 ++ " is the winner!")
    else server_announce s "The scores are tied!"
  let s :=
    if 0 < (score_board.map (fun p => p.2)).sum then run_update_leaderboard s
    else s
  { s with game.stopping := false }

/-- `check_to_proceed()`: advance the index and schedule the next
`proceed_game` task, or finish the game. -/
def check_to_proceed (s : Sys) : Sys :=
  if s.game.cur_q < s.game.tot_q then
    spawn { s with game.cur_q := s.game.cur_q + 1 } TaskBody.proceed_game
  else if s.game.stopping then s
  else stop_game s

/-- `check_answer(answer, name)`.  The source credits
`game.user_score[name] += game.score`; for a registered sender the key is
present, which `dictSet`/`dictGetD` reproduce. -/
def check_answer (s : Sys) (answer : String) (name : String) : Sys :=
  if s.game.solved then s
  else
    match pyInt? answer with
    | none => s
    | some n =>
      if n = s.game.answer then
        let s := { s with game.solved := true }
        let s := server_announce s
          ("Answer " ++ toString n ++ " is correct ✔✔ " ++ name ++
            " got " ++ toString s.game.score ++ " points.")
        let credited := dictSet s.game.user_score name
          (dictGetD s.game.user_score name 0 + s.game.score)
        let s := { s with game.user_score := credited }
        let s := { s with game.check_answer := false }
        check_to_proceed s
      else
        server_announce s
          ("Answer " ++ toString n ++ " is incorrect - " ++ name ++
            ". Try again 🙊")

/-- `a + r % (b - a + 1)`: oracle model of `random.randint(a, b)`. -/
def randint (a b : Int) (r : Nat) : Int :=
  a + (r : Int) % (b - a + 1)

/-- The countdown indices `range(cdt, 0, -1)`. -/
def countdownList (cdt : Int) : List Int :=
  (List.range cdt.toNat).map (fun i => cdt - (i : Int))

/-- The body of the `proceed_game()` task, run when the event loop lets
it complete its sleeps: the pre-question announcements, then the atomic
publish block — draw the operands and the sign, store the question text,
store `eval` of the two-operand expression (= the exact `+`/`-` result),
clear `solved`, set `check_answer`, announce the question.  Oracles
`r1 r2 r3` feed the `randint`/`choice` draws. -/
def proceed_game (s : Sys) (r1 r2 r3 : Nat) : Sys :=
  let g := s.game
  let q := g.cur_q
  let s :=
    if 0 < g.interval_time - g.count_down_time then
      server_announce s
        ("Question " ++ toString q ++ " will start in " ++
          toString g.interval_time ++ " seconds. \\\\(^_^)//")
    else s
  let s := (countdownList g.count_down_time).foldl
    (fun s i =>
      server_announce s
        ("Question " ++ toString q ++ " will start in " ++ toString i ++
          " seconds. " ++
          (if i % 2 = 0 then "\\\\(^_^)\\\\" else "//(^_^)//"))) s
  let x := randint g.bound.1 g.bound.2 r1
  let y := randint g.bound.1 g.bound.2 r2
  let sign := if r3 % 2 = 0 then "+" else "-"
  let question := toString x ++ " " ++ sign ++ " " ++ toString y
  let answer := if r3 % 2 = 0 then x + y else x - y
  let s := { s with
    game.question := question
    game.answer := answer
    game.solved := false
    game.check_answer := true }
  server_announce s ("Question " ++ toString q ++ ": " ++ question ++ " = ❓")

/-- `get_all_palette()`. -/
def get_all_palette (db : DB) : List (String × String × String) :=
  [("SERVER", "dark green", ""), ("help", "yellow", "")] ++
    (db.users.filter (fun p => p.2.active)).map
      (fun p => (p.1, p.2.foreground, p.2.background))

/-- `parse_color(color)`.  The `None` case of the source cannot arise
here (the argument is a string); the empty string is handled first. -/
def parse_color (color : String) : String × String :=
  if color = "" then ("", "")
  else
    match splitListAux (fun c => c == ',') color.data [] with
    | [c] => (String.mk (trimL c), "")
    | c1 :: c2 :: _ => (String.mk (trimL c1), String.mk (trimL c2))
    | [] => ("", "")

/-- The admission part of `register(ws, name, color)` (everything before
`await ws.wait_closed()`). -/
def register (s : Sys) (ws : Nat) (name : String) (color : String) : Sys :=
  if s.game.active then
    { s with out := s.out ++
        [Out.send ws "error" "Can\x27t join during an ongoing game. Please wait"] }
  else if (dictGet? s.db.users name).any (fun u => u.active) then
    { s with out := s.out ++
        [Out.send ws "error" ("Name " ++ name ++ " is already in use")] }
  else
    let fb := parse_color color
    let users := dictSet s.db.users name
      { active := true, foreground := fb.1, background := fb.2 }
    let s := { s with db.users := users }
    let s := { s with out := s.out ++
      [Out.send ws "register" "success",
       Out.sendPalette ws (get_all_palette s.db),
       Out.sendBoard ws s.db.leaderboad] }
    let s := { s with out := s.out ++ [Out.bcastPalette [(name, fb.1, fb.2)]] }
    let s := { s with db.conn := dictSet s.db.conn ws name }
    server_announce s ("User " ++ name ++ " has join the room")

/-- `check_num_user()`. -/
def check_num_user (s : Sys) : Sys :=
  if s.db.conn.length = 0 then stop_game s else s

/-- The `finally` block of `register`: connection cleanup on disconnect,
leave announcement, and the forced stop check. -/
def disconnect (s : Sys) (ws : Nat) : Sys :=
  match dictGet? s.db.conn ws with
  | none => s
  | some name =>
    let s := { s with db.conn := dictDel s.db.conn ws }
    let users := s.db.users.map
      (fun p => if p.1 == name then (p.1, { p.2 with active := false }) else p)
    let s := { s with db.users := users }
    let s := server_announce s ("User " ++ name ++ " has left the room")
    check_num_user s

/-- `resolve_command(command, name)`. -/
def resolve_command (s : Sys) (command : String) (name : String) : Sys :=
  if command = "/stop" then
    let s := server_announce s ("User " ++ name ++ " has stopped the game.")
    stop_game s
  else if s.game.active then
    server_announce s
      ("Failed to proceed with command " ++ command ++ ". Due to an ongoing game.")
  else if strStartsWith command "/play" then
    match start_game s.db s.game command with
    | Except.ok g =>
      let s := { s with game := g }
      let s := server_announce s
        ("New Game has been started by " ++ name ++ ".\n" ++
         "      Question difficulty: " ++ g.difficulty ++ "\n" ++
         "      Number of questions: " ++ toString g.tot_q ++ "\n" ++
         "      Number of players:   " ++ toString g.user_score.length ++
         " (" ++ String.intercalate " 🆚 " (g.user_score.map (fun p => p.1)) ++ ")")
      spawn s TaskBody.check_to_proceed
    | Except.error g =>
      let s := { s with game := g }
      server_announce s
        "Failed to start game. Hint: use `/play <difficulty> <num-questions>`."
  else if command = "/reset" then
    reset_leaderboard s
  else if strStartsWith command "/set-delay" then
    match splitWs command with
    | [_, t] =>
      match pyInt? t with
      | some time =>
        if time < 3 then
          server_announce s "Delay time can\x27t be lower than 3"
        else if 20 < time then
          server_announce s "Delay time can\x27t be lower than 20"
        else
          let s := { s with game.interval_time := time }
          server_announce s
            ("The delay time between questions has been set to " ++
              toString time ++ " second(s)")
      | none =>
        server_announce s "Failed to set delay time. Hint: Use `/set-delay <second>`"
    | _ =>
      server_announce s "Failed to set delay time. Hint: Use `/set-delay <second>`"
  else s

/-- One `message`-action iteration of `hello` for a registered
connection: echo the payload, feed the answer arbiter while a game is
active, then route "/"-commands.  (When `check_answer` suspends inside
`stop_game` the payload was a parsed integer, which cannot start with
"/", so the trailing command-routing step of the source is a no-op on
that path.) -/
def hello_message (s : Sys) (ws : Nat) (payload : String) : Sys :=
  match dictGet? s.db.conn ws with
  | none => s
  | some name =>
    let s := announce s payload (some name)
    let s := if s.game.active then check_answer s payload name else s
    if strStartsWith payload "/" then resolve_command s payload name else s

/-- An external event of the event loop. -/
inductive Act where
  | register (ws : Nat) (name : String) (color : String)
  | message (ws : Nat) (payload : String)
  | close (ws : Nat)
  | run (tid : Nat) (r1 : Nat) (r2 : Nat) (r3 : Nat)

/-- The event loop lets pending task `tid` run to its next completion
point (a task not in the pending list was completed or cancelled and
does nothing). -/
def runTask (s : Sys) (tid r1 r2 r3 : Nat) : Sys :=
  match s.tasks.find? (fun t => t.1 == tid) with
  | none => s
  | some t =>
    let s := { s with tasks := s.tasks.filter (fun u => !(u.1 == tid)) }
    match t.2 with
    | TaskBody.check_to_proceed => check_to_proceed s
    | TaskBody.proceed_game => proceed_game s r1 r2 r3
    | TaskBody.stop_resume board => stop_resume_run s board

/-- One scheduler step. -/
def step (s : Sys) (a : Act) : Sys :=
  match a with
  | Act.register ws name color => register s ws name color
  | Act.message ws payload => hello_message s ws payload
  | Act.close ws => disconnect s ws
  | Act.run tid r1 r2 r3 => runTask s tid r1 r2 r3

/-- Execute a sequence of events from the fresh server. -/
def exec (acts : List Act) : Sys :=
  acts.foldl step initSys

/-- Total score an association list assigns to a user (summing duplicate
entries, so it is robust for arbitrary lists and agrees with the dict
value on unique-key lists). -/
def assocTotal (l : List (String × Int)) (u : String) : Int :=
  ((l.filter (fun p => p.1 == u)).map (fun p => p.2)).sum

/-- The user appears as a key of the association list. -/
def hasKey (l : List (String × Int)) (u : String) : Prop :=
  ∃ p ∈ l, p.1 = u

/-- Descending order by score, the order `sorted(..., reverse=True)`
produces. -/
def SortedDesc (l : List (String × Int)) : Prop :=
  l.Pairwise (fun a b => b.2 ≤ a.2)

/-- One user joins and sends a `/play` whose difficulty token is not a
known tier: the count parses and is assigned to `tot_q` before the
lookup fails. -/
def invalidPlayTrace : List Act :=
  [Act.register 1 "alice" "", Act.message 1 "/play turbo 5"]

/-- One user joins, `/play easy 2` is accepted, the `check_to_proceed`
task runs (spawning the first `proceed_game` task, which is now inside
its delay sleeps, question unpublished), and the user sends the chat
message `0` — equal to the never-reset pending answer of the fresh
server. -/
def staleAnswerTrace : List Act :=
  [Act.register 1 "alice" "", Act.message 1 "/play easy 2",
   Act.run 0 0 0 0, Act.message 1 "0"]

/-- One user plays a single-question easy round and answers the
published question correctly, ending the round naturally. -/
def soloRoundTrace : List Act :=
  [Act.register 1 "alice" "", Act.message 1 "/play easy 1",
   Act.run 0 0 0 0, Act.run 1 0 0 0, Act.message 1 "0"]

/-- One user plays `/play easy 3` and answers each published question
correctly. -/
def threeCorrectTrace : List Act :=
  [Act.register 1 "alice" "", Act.message 1 "/play easy 3",
   Act.run 0 0 0 0, Act.run 1 0 0 0, Act.message 1 "0",
   Act.run 2 0 0 0, Act.message 1 "0",
   Act.run 3 0 0 0, Act.message 1 "0"]

/-- Two users play a one-question round which ends after a correct
answer; finalization reaches the `asyncio.sleep(0.5)` inside
`stop_game`, so the state is in the Stopping phase with the resume
continuation still pending. -/
def stoppingPhaseTrace : List Act :=
  [Act.register 1 "alice" "", Act.register 2 "bob" "",
   Act.message 1 "/play easy 1",
   Act.run 0 0 0 0, Act.run 1 0 0 0, Act.message 1 "0"]

/-- A state after a finalized two-participant round: the round scores
were already merged once into the leaderboard, the game is Idle, the
round-score mapping is the leftover of the finished round, and one
connection remains. -/
def lingeringScoresSys : Sys :=
  { game := { user_score := [("alice", 10), ("bob", 0)] }
    db := { users := [("alice", { active := true }), ("bob", { active := false })]
            leaderboad := [("alice", 10), ("bob", 0)]
            conn := [(1, "alice")] }
    tasks := []
    nextId := 3
    out := [] }

/-- A state in the Stopping phase (active cleared, stopping set) with
two registered users, as reached during `stop_game` finalization. -/
def stoppingSys : Sys :=
  { game := { stopping := true, user_score := [("alice", 10), ("bob", 0)] }
    db := { users := [("alice", { active := true }), ("bob", { active := true })]
            conn := [(1, "alice"), (2, "bob")] }
    tasks := [(2, TaskBody.stop_resume [("alice", 10), ("bob", 0)])]
    nextId := 3
    out := [] }

theorem insortDesc_perm (x : String × Int) (l : List (String × Int)) :
    List.Perm (insortDesc x l) (x :: l) := by
  induction l with
  | nil => simp [insortDesc]
  | cons y ys ih =>
    by_cases h : y.2 ≤ x.2
    · simp [insortDesc, h]
    · simp only [insortDesc, if_neg h]
      exact (ih.cons y).trans (List.Perm.swap x y ys)

theorem pySortDesc_perm (l : List (String × Int)) :
    List.Perm (pySortDesc l) l := by
  induction l with
  | nil => simp [pySortDesc]
  | cons x xs ih =>
    have h : pySortDesc (x :: xs) = insortDesc x (pySortDesc xs) := rfl
    rw [h]
    exact (insortDesc_perm x (pySortDesc xs)).trans (ih.cons x)

theorem insortDesc_sorted (x : String × Int) (l : List (String × Int))
    (h : SortedDesc l) : SortedDesc (insortDesc x l) := by
  induction l with
  | nil => simp [insortDesc, SortedDesc]
  | cons y ys ih =>
    rcases List.pairwise_cons.mp h with ⟨hy, hys⟩
    by_cases hxy : y.2 ≤ x.2
    · simp only [insortDesc, if_pos hxy]
      refine List.Pairwise.cons ?_ h
      intro b hb
      rcases List.mem_cons.mp hb with rfl | hb
      · exact hxy
      · exact le_trans (hy b hb) hxy
    · simp only [insortDesc, if_neg hxy]
      refine List.Pairwise.cons ?_ (ih hys)
      intro b hb
      rcases List.mem_cons.mp ((insortDesc_perm x ys).mem_iff.mp hb) with rfl | hb
      · exact le_of_lt (lt_of_not_le hxy)
      · exact hy b hb

theorem pySortDesc_sorted (l : List (String × Int)) :
    SortedDesc (pySortDesc l) := by
  induction l with
  | nil => simp [pySortDesc, SortedDesc]
  | cons x xs ih => exact insortDesc_sorted x (pySortDesc xs) ih

theorem perm_assocTotal {l1 l2 : List (String × Int)}
    (h : List.Perm l1 l2) (u : String) :
    assocTotal l1 u = assocTotal l2 u :=
  List.Perm.sum_eq ((h.filter (fun p => p.1 == u)).map (fun p => p.2))

theorem perm_scoreSum {l1 l2 : List (String × Int)} (h : List.Perm l1 l2) :
    (l1.map (fun p => p.2)).sum = (l2.map (fun p => p.2)).sum :=
  List.Perm.sum_eq (h.map (fun p => p.2))

theorem assocTotal_nil (u : String) : assocTotal [] u = 0 := rfl

theorem assocTotal_append (a b : List (String × Int)) (u : String) :
    assocTotal (a ++ b) u = assocTotal a u + assocTotal b u := by
  simp [assocTotal, List.filter_append]

theorem assocTotal_cons (p : String × Int) (l : List (String × Int))
    (u : String) :
    assocTotal (p :: l) u = (if p.1 == u then p.2 else 0) + assocTotal l u := by
  by_cases h : p.1 == u <;> simp [assocTotal, List.filter_cons, h]

theorem not_has_total {l : List (String × Int)} {u : String}
    (h : ∀ p ∈ l, (p.1 == u) = false) : assocTotal l u = 0 := by
  unfold assocTotal
  rw [List.filter_eq_nil_iff.mpr (by intro p hp; simp [h p hp])]
  rfl

theorem dictGet?_cons (q : String × Int) (t : Dict String Int) (u : String) :
    dictGet? (q :: t) u = if q.1 == u then some q.2 else dictGet? t u := by
  by_cases h : q.1 == u
  · simp [dictGet?, List.find?_cons_of_pos, h]
  · simp [dictGet?, List.find?_cons_of_neg, h]

theorem get_some_total {l : Dict String Int} {u : String} {v : Int}
    (hnd : NodupKeys l) (h : dictGet? l u = some v) : assocTotal l u = v := by
  induction l with
  | nil => simp [dictGet?] at h
  | cons p t ih =>
    rcases List.pairwise_cons.mp hnd with ⟨hp, ht⟩
    rw [dictGet?_cons] at h
    by_cases hk : p.1 == u
    · rw [if_pos hk] at h
      have hv : p.2 = v := Option.some.inj h
      have hku : p.1 = u := by simpa using hk
      have hrest : assocTotal t u = 0 := by
        apply not_has_total
        intro q hq
        have hne : q.1 ≠ u := fun he => (hp q hq) (hku.trans he.symm)
        simp [hne]
      rw [assocTotal_cons, if_pos hk, hrest, hv]
      omega
    · rw [if_neg hk] at h
      rw [assocTotal_cons, if_neg hk, ih ht h]
      omega

theorem mergeStep_some {nb : List (String × Int)} {sc : Dict String Int}
    {e : String × Int} {v : Int} (h : dictGet? sc e.1 = some v) :
    mergeStep (nb, sc) e = (nb ++ [(e.1, e.2 + v)], dictDel sc e.1) := by
  unfold mergeStep
  rw [h]

theorem mergeStep_none {nb : List (String × Int)} {sc : Dict String Int}
    {e : String × Int} (h : dictGet? sc e.1 = none) :
    mergeStep (nb, sc) e = (nb ++ [e], sc) := by
  unfold mergeStep
  rw [h]

theorem dictDel_total_self (l : Dict String Int) (u : String) :
    assocTotal (dictDel l u) u = 0 := by
  apply not_has_total
  intro p hp
  have := (List.mem_filter.mp hp).2
  simpa using this

theorem dictDel_total_ne (l : Dict String Int) {k u : String} (h : k ≠ u) :
    assocTotal (dictDel l k) u = assocTotal l u := by
  induction l with
  | nil => rfl
  | cons p t ih =>
    by_cases hp : p.1 = k
    · have h2 : (p.1 == u) = false := by simp [hp, h]
      have hfc : dictDel (p :: t) k = dictDel t k := by
        simp [dictDel, List.filter_cons, hp]
      rw [hfc, ih, assocTotal_cons, if_neg (by simp [h2])]
      omega
    · have hfc : dictDel (p :: t) k = p :: dictDel t k := by
        simp [dictDel, List.filter_cons, hp]
      rw [hfc, assocTotal_cons, assocTotal_cons, ih]

theorem nodup_dictDel {l : Dict String Int} (k : String)
    (h : NodupKeys l) : NodupKeys (dictDel l k) :=
  List.Pairwise.sublist (List.filter_sublist l) h

theorem mergeFold_total (u : String) (board : List (String × Int)) :
    ∀ (nb : List (String × Int)) (sc : Dict String Int), NodupKeys sc →
      assocTotal (board.foldl mergeStep (nb, sc)).1 u +
        assocTotal (board.foldl mergeStep (nb, sc)).2 u =
      assocTotal nb u + assocTotal sc u + assocTotal board u := by
  induction board with
  | nil => intro nb sc _; simp [assocTotal_nil]
  | cons e t ih =>
    intro nb sc hnd
    rw [List.foldl_cons]
    cases hget : dictGet? sc e.1 with
    | some v =>
      rw [mergeStep_some hget]
      rw [ih (nb ++ [(e.1, e.2 + v)]) (dictDel sc e.1) (nodup_dictDel e.1 hnd)]
      rw [assocTotal_append, assocTotal_cons, assocTotal_cons, assocTotal_nil]
      by_cases hk : e.1 == u
      · have hku : e.1 = u := by simpa using hk
        rw [if_pos hk, if_pos hk, hku, dictDel_total_self]
        have hv : assocTotal sc u = v := get_some_total hnd (hku ▸ hget)
        rw [hv]
        omega
      · have hku : e.1 ≠ u := by simpa using hk
        rw [if_neg (by simp [hk]), if_neg (by simp [hk]), dictDel_total_ne sc hku]
        omega
    | none =>
      rw [mergeStep_none hget]
      rw [ih (nb ++ [e]) sc hnd]
      rw [assocTotal_append, assocTotal_cons, assocTotal_cons, assocTotal_nil]
      omega

theorem update_leaderboard_total (board : List (String × Int))
    (sc : Dict String Int) (u : String) (hnd : NodupKeys sc) :
    assocTotal (update_leaderboard board sc).1 u
      = assocTotal board u + assocTotal sc u := by
  unfold update_leaderboard
  rw [perm_assocTotal (pySortDesc_perm _) u, assocTotal_append]
  have h := mergeFold_total u board [] sc hnd
  rw [assocTotal_nil] at h
  omega

theorem hasKey_dictDel {sc : Dict String Int} {k e1 : String}
    (h : hasKey sc k) (hne : k ≠ e1) : hasKey (dictDel sc e1) k := by
  rcases h with ⟨p, hp, hpk⟩
  exact ⟨p, List.mem_filter.mpr ⟨hp, by simp [hpk, hne]⟩, hpk⟩

theorem mergeFold_hasKey (k : String) (board : List (String × Int)) :
    ∀ (nb : List (String × Int)) (sc : Dict String Int),
      hasKey nb k ∨ hasKey sc k →
      hasKey (board.foldl mergeStep (nb, sc)).1 k ∨
        hasKey (board.foldl mergeStep (nb, sc)).2 k := by
  induction board with
  | nil => intro nb sc h; exact h
  | cons e t ih =>
    intro nb sc h
    rw [List.foldl_cons]
    show hasKey (t.foldl mergeStep (mergeStep (nb, sc) e)).1 k ∨ _
    unfold mergeStep
    cases hget : dictGet? sc e.1 with
    | some v =>
      simp only [hget]
      apply ih
      rcases h with hnb | hsc
      · left
        rcases hnb with ⟨p, hp, hpk⟩
        exact ⟨p, List.mem_append_left _ hp, hpk⟩
      · by_cases hke : k = e.1
        · left
          exact ⟨(e.1, e.2 + v), List.mem_append_right _ (by simp), hke.symm⟩
        · right
          exact hasKey_dictDel hsc hke
    | none =>
      simp only [hget]
      apply ih
      rcases h with hnb | hsc
      · left
        rcases hnb with ⟨p, hp, hpk⟩
        exact ⟨p, List.mem_append_left _ hp, hpk⟩
      · right; exact hsc

theorem update_leaderboard_hasKey (board : List (String × Int))
    (sc : Dict String Int) (k : String) (h : hasKey sc k) :
    hasKey (update_leaderboard board sc).1 k := by
  show hasKey (pySortDesc ((board.foldl mergeStep ([], sc)).1 ++
    (board.foldl mergeStep ([], sc)).2)) k
  rcases mergeFold_hasKey k board [] sc (Or.inr h) with h1 | h2
  · rcases h1 with ⟨p, hp, hpk⟩
    exact ⟨p, ((pySortDesc_perm _).mem_iff).mpr (List.mem_append_left _ hp), hpk⟩
  · rcases h2 with ⟨p, hp, hpk⟩
    exact ⟨p, ((pySortDesc_perm _).mem_iff).mpr (List.mem_append_right _ hp), hpk⟩

theorem update_leaderboard_sorted (board : List (String × Int))
    (sc : Dict String Int) : SortedDesc (update_leaderboard board sc).1 :=
  pySortDesc_sorted _

theorem server_announce_game (s : Sys) (m : String) :
    (server_announce s m).game = s.game := rfl

theorem server_announce_db (s : Sys) (m : String) :
    (server_announce s m).db = s.db := rfl

theorem server_announce_tasks (s : Sys) (m : String) :
    (server_announce s m).tasks = s.tasks := rfl

theorem server_announce_nextId (s : Sys) (m : String) :
    (server_announce s m).nextId = s.nextId := rfl

theorem server_announce_out (s : Sys) (m : String) :
    (server_announce s m).out =
      s.out ++ [Out.bcast "message" ("SERVER: " ++ m) (some "SERVER")] := rfl

theorem stop_game_db (s : Sys) : (stop_game s).db = s.db := by
  unfold stop_game
  dsimp only
  split
  · rfl
  · split <;> rfl

theorem stop_game_leaderboad (s : Sys) :
    (stop_game s).db.leaderboad = s.db.leaderboad := by
  rw [stop_game_db]

theorem stop_game_user_score (s : Sys) :
    (stop_game s).game.user_score = s.game.user_score := by
  unfold stop_game
  dsimp only
  split
  · rfl
  · split <;> rfl

theorem stop_game_active (s : Sys) : (stop_game s).game.active = false := by
  unfold stop_game
  dsimp only
  split
  · rfl
  · split <;> rfl

theorem stop_game_out (s : Sys) : ∃ rest, (stop_game s).out =
    s.out ++ [Out.bcast "message" "SERVER: Game has ended !!!" (some "SERVER")]
      ++ rest := by
  unfold stop_game
  dsimp only
  split
  · exact ⟨_, rfl⟩
  · split
    · exact ⟨_, rfl⟩
    · exact ⟨[], by rw [List.append_nil]; rfl⟩

theorem start_game_error_shape {db : DB} {g : Game} {cmd : String} {g2 : Game}
    (h : start_game db g cmd = Except.error g2) :
    ∃ t, g2 = { g with tot_q := t } := by
  unfold start_game at h
  split at h
  · split at h
    · exact ⟨g.tot_q, by cases h; rfl⟩
    · split at h
      · exact ⟨_, (Except.error.inj h).symm⟩
      · split at h
        · exact ⟨_, (Except.error.inj h).symm⟩
        · exact Except.noConfusion h
  · exact ⟨g.tot_q, by cases h; rfl⟩

theorem start_game_ok_active {db : DB} {g : Game} {cmd : String} {g2 : Game}
    (h : start_game db g cmd = Except.ok g2) : g2.active = true := by
  unfold start_game at h
  split at h
  · split at h
    · exact Except.noConfusion h
    · split at h
      · exact Except.noConfusion h
      · split at h
        · exact Except.noConfusion h
        · cases h; rfl
  · exact Except.noConfusion h

theorem randint_bounds {a b : Int} (r : Nat) (h : a ≤ b) :
    a ≤ randint a b r ∧ randint a b r ≤ b := by
  unfold randint
  have h1 : 0 ≤ (r : Int) % (b - a + 1) := Int.emod_nonneg _ (by omega)
  have h2 : (r : Int) % (b - a + 1) < b - a + 1 := Int.emod_lt_of_pos _ (by omega)
  omega

theorem stop_resume_merges (s : Sys) (board : List (String × Int))
    (hsum : 0 < (board.map (fun p => p.2)).sum) :
    (stop_resume_run s board).db.leaderboad =
      (update_leaderboard s.db.leaderboad s.game.user_score).1 := by
  unfold stop_resume_run
  dsimp only
  rw [if_pos hsum]
  split <;> rfl

/-- C1 counterexample: on a fresh idle server `/play turbo 5` is rejected
with the usage hint, yet `game.tot_q` has been mutated from 0 to 5, so
the Game state after handling the command differs from the state before
it. -/
theorem C1_counterexample :
    initSys.game.tot_q = 0
    ∧ (exec invalidPlayTrace).game.tot_q = 5
    ∧ (exec invalidPlayTrace).game ≠ initSys.game
    ∧ (exec invalidPlayTrace).game.active = false
    ∧ Out.bcast "message"
        "SERVER: Failed to start game. Hint: use `/play <difficulty> <num-questions>`."
        (some "SERVER") ∈ (exec invalidPlayTrace).out := by decide

/-- C1 (amended): a `/play` command rejected while no game is active
broadcasts the usage hint and leaves the whole server state unchanged
except possibly the `tot_q` field of the Game, which is assigned the
parsed count before validation can fail. -/
theorem C1_amended_play_reject (s : Sys) (cmd name : String) (g2 : Game)
    (hact : s.game.active = false) (hstop : cmd ≠ "/stop")
    (hplay : strStartsWith cmd "/play" = true)
    (herr : start_game s.db s.game cmd = Except.error g2) :
    (resolve_command s cmd name).game = g2
    ∧ (∃ t, g2 = { s.game with tot_q := t })
    ∧ (resolve_command s cmd name).db = s.db
    ∧ (resolve_command s cmd name).tasks = s.tasks
    ∧ (resolve_command s cmd name).out = s.out ++
        [Out.bcast "message"
          "SERVER: Failed to start game. Hint: use `/play <difficulty> <num-questions>`."
          (some "SERVER")] := by
  unfold resolve_command
  rw [if_neg hstop, if_neg (by simp [hact]), if_pos hplay, herr]
  exact ⟨rfl, start_game_error_shape herr, rfl, rfl, rfl⟩

/-- C1 witness: the amended theorem applied to the fresh server and the
command `/play turbo 5`. -/
theorem C1_witness :
    (resolve_command initSys "/play turbo 5" "alice").game =
      { initSys.game with tot_q := 5 } :=
  (C1_amended_play_reject initSys "/play turbo 5" "alice"
    { initSys.game with tot_q := 5 }
    (by decide) (by decide) (by decide) (by decide)).1

/-- C2: failing input for the one-cycle-task invariant.  After
`/play easy 2` is accepted, its `check_to_proceed` task runs (spawning
the first `proceed_game` task, still sleeping, question unpublished) and
the stale answer `0` is then scored, which schedules a second
`proceed_game` task: two scheduled cycle tasks are pending at once, and
the `cur_game` handle tracks only the second. -/
theorem C2_two_pending_cycle_tasks :
    (exec staleAnswerTrace).tasks =
      [(1, TaskBody.proceed_game), (2, TaskBody.proceed_game)]
    ∧ (exec staleAnswerTrace).game.cur_game = some 2 := by decide

/-- C3: accepting `/play` does not reset the pending answer or the
solved flag, so on a fresh server the chat message `0` sent before the
first question is published (question text still empty) is announced
correct, credited the easy 10 points, and schedules an additional cycle
step while the first `proceed_game` task is still pending. -/
theorem C3_stale_answer_arbitration :
    (exec staleAnswerTrace).game.question = ""
    ∧ Out.bcast "message" "SERVER: Answer 0 is correct ✔✔ alice got 10 points."
        (some "SERVER") ∈ (exec staleAnswerTrace).out
    ∧ dictGet? (exec staleAnswerTrace).game.user_score "alice" = some 10
    ∧ (1, TaskBody.proceed_game) ∈ (exec staleAnswerTrace).tasks
    ∧ (2, TaskBody.proceed_game) ∈ (exec staleAnswerTrace).tasks
    ∧ (exec staleAnswerTrace).game.solved = true := by decide

/-- C4 counterexample: a naturally ended single-participant round with a
positive round score (10 points) leaves the leaderboard empty — the
round scores are not merged when there is exactly one participant. -/
theorem C4_counterexample :
    (exec soloRoundTrace).game.active = false
    ∧ (exec soloRoundTrace).game.stopping = false
    ∧ (exec soloRoundTrace).game.user_score = [("alice", 10)]
    ∧ (exec soloRoundTrace).db.leaderboad = []
    ∧ (exec soloRoundTrace).tasks = [] := by decide

/-- C4 (amended): round scores are merged into the leaderboard only when
the round has more than one participant and the sum of round scores is
positive; a single-participant round only announces that participant's
total and leaves the leaderboard untouched. -/
theorem C4_amended_merge_only_multi (s : Sys) :
    (s.game.user_score.length = 1 →
      (stop_game s).db.leaderboad = s.db.leaderboad
      ∧ (stop_game s).tasks = cancelTask s.tasks s.game.cur_game
      ∧ (stop_game s).game.stopping = false)
    ∧ (1 < s.game.user_score.length →
      0 < (s.game.user_score.map (fun p => p.2)).sum →
      (stop_game s).tasks = cancelTask s.tasks s.game.cur_game ++
        [(s.nextId, TaskBody.stop_resume (pySortDesc s.game.user_score))]
      ∧ (stop_resume_run (stop_game s) (pySortDesc s.game.user_score)).db.leaderboad
        = (update_leaderboard s.db.leaderboad s.game.user_score).1) := by
  constructor
  · intro h1
    unfold stop_game
    dsimp only
    split
    · exact ⟨rfl, rfl, rfl⟩
    · next hne => exact absurd h1 hne
  · intro h2 hsum
    have hsb : 0 < ((pySortDesc s.game.user_score).map (fun p => p.2)).sum := by
      rw [perm_scoreSum (pySortDesc_perm _)]
      exact hsum
    constructor
    · unfold stop_game
      dsimp only
      split
      · next h1 =>
        have h1x : s.game.user_score.length = 1 := h1
        omega
      · split
        · rfl
        · next hne =>
          have hnx : ¬ 1 < s.game.user_score.length := hne
          omega
    · rw [stop_resume_merges (stop_game s) _ hsb, stop_game_db,
        stop_game_user_score]

/-- C4 witness: the amended theorem's multi-participant branch applied
to a concrete two-participant state with positive round-score sum. -/
theorem C4_witness :
    (stop_resume_run (stop_game stoppingSys)
        (pySortDesc stoppingSys.game.user_score)).db.leaderboad
      = (update_leaderboard stoppingSys.db.leaderboad
          stoppingSys.game.user_score).1 :=
  ((C4_amended_merge_only_multi stoppingSys).2 (by decide) (by decide)).2

/-- C5: when the only remaining connection disconnects while the game is
already Idle, `stop_game` finalization nevertheless runs: the
end-of-game announcement is broadcast again, and if the leftover
round-score mapping still has more than one entry with a positive sum,
its scores are merged into the leaderboard a second time by the resumed
finalization. -/
theorem C5_last_disconnect_refinalizes (s : Sys) (ws : Nat) (name : String)
    (hconn : s.db.conn = [(ws, name)])
    (hidle : s.game.active = false) (hstopping : s.game.stopping = false) :
    (∃ rest, (disconnect s ws).out = s.out ++
      [Out.bcast "message" ("SERVER: " ++ ("User " ++ name ++ " has left the room"))
        (some "SERVER"),
       Out.bcast "message" "SERVER: Game has ended !!!" (some "SERVER")] ++ rest)
    ∧ (1 < s.game.user_score.length →
       0 < (s.game.user_score.map (fun p => p.2)).sum →
       (stop_resume_run (disconnect s ws)
           (pySortDesc s.game.user_score)).db.leaderboad
         = (update_leaderboard s.db.leaderboad s.game.user_score).1) := by
  have hget : dictGet? s.db.conn ws = some name := by
    rw [hconn]; simp [dictGet?]
  have hdel : dictDel s.db.conn ws = [] := by
    rw [hconn]; simp [dictDel]
  constructor
  · unfold disconnect
    rw [hget]
    dsimp only
    unfold check_num_user
    rw [if_pos (by rw [hdel]; rfl)]
    obtain ⟨rest, hr⟩ := stop_game_out (server_announce
      { s with
          db.conn := dictDel s.db.conn ws
          db.users := s.db.users.map (fun p =>
            if p.1 == name then (p.1, { p.2 with active := false }) else p) }
      ("User " ++ name ++ " has left the room"))
    refine ⟨rest, ?_⟩
    rw [hr]
    simp [server_announce_out]
  · intro h2 hsum
    have hsb : 0 < ((pySortDesc s.game.user_score).map (fun p => p.2)).sum := by
      rw [perm_scoreSum (pySortDesc_perm _)]
      exact hsum
    have hlb : (disconnect s ws).db.leaderboad = s.db.leaderboad := by
      unfold disconnect
      rw [hget]
      dsimp only
      unfold check_num_user
      split
      · exact stop_game_leaderboad _
      · rfl
    have hus : (disconnect s ws).game.user_score = s.game.user_score := by
      unfold disconnect
      rw [hget]
      dsimp only
      unfold check_num_user
      split
      · exact stop_game_user_score _
      · rfl
    rw [stop_resume_merges (disconnect s ws) _ hsb, hlb, hus]

set_option maxRecDepth 4000 in
/-- C5 witness: the theorem applied to a concrete idle state with one
remaining connection and a leftover two-entry round-score mapping whose
sum is positive (the previous round was already merged once). -/
theorem C5_witness :
    (stop_resume_run (disconnect lingeringScoresSys 1)
        (pySortDesc lingeringScoresSys.game.user_score)).db.leaderboad
      = (update_leaderboard lingeringScoresSys.db.leaderboad
          lingeringScoresSys.game.user_score).1 :=
  (C5_last_disconnect_refinalizes lingeringScoresSys 1 "alice"
    (by decide) (by decide) (by decide)).2 (by decide) (by decide)

/-- C6: from an idle server with one registered active participant,
`/play easy 3` followed by three correct answers yields a total round
score of 30 for that participant and a final Idle state (active and
stopping flags both cleared). -/
theorem C6_three_correct_easy :
    (exec threeCorrectTrace).game.user_score = [("alice", 30)]
    ∧ (exec threeCorrectTrace).game.active = false
    ∧ (exec threeCorrectTrace).game.stopping = false
    ∧ (exec threeCorrectTrace).tasks = [] := by decide

set_option maxRecDepth 10000 in
/-- C7 counterexample: a reachable Stopping-phase state (finalization
suspended at its half-second sleep, active flag cleared, stopping flag
set) in which a `/play easy 5` message is accepted: the game becomes
active again and the new-game announcement is broadcast while stopping
is still true. -/
theorem C7_counterexample :
    (exec stoppingPhaseTrace).game.stopping = true
    ∧ (exec stoppingPhaseTrace).game.active = false
    ∧ (step (exec stoppingPhaseTrace) (Act.message 2 "/play easy 5")).game.active = true
    ∧ (step (exec stoppingPhaseTrace) (Act.message 2 "/play easy 5")).game.stopping = true
    ∧ Out.bcast "message"
        "SERVER: New Game has been started by bob.\n      Question difficulty: easy\n      Number of questions: 5\n      Number of players:   2 (alice 🆚 bob)"
        (some "SERVER")
        ∈ (step (exec stoppingPhaseTrace) (Act.message 2 "/play easy 5")).out := by decide

/-- C7 (amended): the `/play` guard checks only the active flag, so in
the Stopping phase (active cleared, stopping set) a well-formed `/play`
request is accepted: the game becomes active and a new cycle task is
scheduled. -/
theorem C7_amended_play_accepted_while_stopping (s : Sys) (cmd name : String)
    (g2 : Game) (hstopping : s.game.stopping = true)
    (hact : s.game.active = false) (hstop : cmd ≠ "/stop")
    (hplay : strStartsWith cmd "/play" = true)
    (hok : start_game s.db s.game cmd = Except.ok g2) :
    (resolve_command s cmd name).game.active = true
    ∧ (resolve_command s cmd name).tasks =
        s.tasks ++ [(s.nextId, TaskBody.check_to_proceed)] := by
  unfold resolve_command
  rw [if_neg hstop, if_neg (by simp [hact]), if_pos hplay, hok]
  refine ⟨?_, rfl⟩
  show g2.active = true
  exact start_game_ok_active hok

/-- C7 witness: the amended theorem applied to a concrete Stopping-phase
state and the command `/play easy 5`. -/
theorem C7_witness :
    (resolve_command stoppingSys "/play easy 5" "bob").game.active = true :=
  (C7_amended_play_accepted_while_stopping stoppingSys "/play easy 5" "bob"
    { stoppingSys.game with
        tot_q := 5, bound := (0, 100), score := 10, difficulty := "easy",
        cur_q := 0, user_score := [("alice", 0), ("bob", 0)], active := true }
    (by decide) (by decide) (by decide) (by decide) (by decide)).1

/-- C8: the leaderboard merge adds each participant's round score to the
existing persisted total (new users enter at their round score), every
participant has an entry afterwards, the board is re-sorted descending
by score, and merging rounds A then B gives the same per-user totals as
B then A. -/
theorem C8_merge_adds_sorts_commutes (board A B : List (String × Int))
    (u : String) (hA : NodupKeys A) (hB : NodupKeys B) :
    assocTotal (update_leaderboard board A).1 u
      = assocTotal board u + assocTotal A u
    ∧ (∀ p ∈ A, hasKey (update_leaderboard board A).1 p.1)
    ∧ SortedDesc (update_leaderboard board A).1
    ∧ assocTotal (update_leaderboard (update_leaderboard board A).1 B).1 u
      = assocTotal (update_leaderboard (update_leaderboard board B).1 A).1 u := by
  refine ⟨update_leaderboard_total board A u hA, ?_,
    update_leaderboard_sorted board A, ?_⟩
  · intro p hp
    exact update_leaderboard_hasKey board A p.1 ⟨p, hp, rfl⟩
  · rw [update_leaderboard_total _ B u hB, update_leaderboard_total board A u hA,
      update_leaderboard_total _ A u hA, update_leaderboard_total board B u hB]
    omega

/-- C8 witness: the merge theorem applied to concrete board and round
scores. -/
theorem C8_witness :
    assocTotal (update_leaderboard [("alice", 5)] [("alice", 10), ("bob", 3)]).1 "bob"
      = assocTotal [("alice", 5)] "bob"
        + assocTotal [("alice", 10), ("bob", 3)] "bob" :=
  (C8_merge_adds_sorts_commutes [("alice", 5)] [("alice", 10), ("bob", 3)]
    [("bob", 2)] "bob" (by decide) (by decide)).1

/-- C9: `/set-delay <s>` while no game is active sets the inter-question
delay when s is an integer in [3, 20]; an out-of-range integer or
malformed arguments (wrong token count or a non-integer) are rejected
with a hint and the whole state is unchanged. -/
theorem C9_set_delay (s : Sys) (cmd name : String)
    (hact : s.game.active = false) (hstop : cmd ≠ "/stop")
    (hplay : strStartsWith cmd "/play" = false) (hreset : cmd ≠ "/reset")
    (hsd : strStartsWith cmd "/set-delay" = true) :
    (∀ a t n, splitWs cmd = [a, t] → pyInt? t = some n → 3 ≤ n → n ≤ 20 →
      (resolve_command s cmd name).game = { s.game with interval_time := n }
      ∧ (resolve_command s cmd name).db = s.db
      ∧ (resolve_command s cmd name).tasks = s.tasks
      ∧ (resolve_command s cmd name).out = s.out ++
          [Out.bcast "message"
            ("SERVER: " ++ ("The delay time between questions has been set to "
              ++ toString n ++ " second(s)"))
            (some "SERVER")])
    ∧ (∀ a t n, splitWs cmd = [a, t] → pyInt? t = some n → (n < 3 ∨ 20 < n) →
      (resolve_command s cmd name).game = s.game
      ∧ (resolve_command s cmd name).db = s.db
      ∧ (resolve_command s cmd name).tasks = s.tasks
      ∧ (resolve_command s cmd name).out = s.out ++
          [Out.bcast "message"
            (if n < 3 then "SERVER: Delay time can\x27t be lower than 3"
             else "SERVER: Delay time can\x27t be lower than 20")
            (some "SERVER")])
    ∧ (∀ a t, splitWs cmd = [a, t] → pyInt? t = none →
      (resolve_command s cmd name).game = s.game
      ∧ (resolve_command s cmd name).db = s.db
      ∧ (resolve_command s cmd name).out = s.out ++
          [Out.bcast "message"
            "SERVER: Failed to set delay time. Hint: Use `/set-delay <second>`"
            (some "SERVER")])
    ∧ ((∀ a t, splitWs cmd ≠ [a, t]) →
      (resolve_command s cmd name).game = s.game
      ∧ (resolve_command s cmd name).db = s.db
      ∧ (resolve_command s cmd name).out = s.out ++
          [Out.bcast "message"
            "SERVER: Failed to set delay time. Hint: Use `/set-delay <second>`"
            (some "SERVER")]) := by
  refine ⟨?_, ?_, ?_, ?_⟩
  · intro a t n hsplit hint h3 h20
    unfold resolve_command
    rw [if_neg hstop, if_neg (by simp [hact]), if_neg (by simp [hplay]),
      if_neg hreset, if_pos hsd, hsplit]
    dsimp only
    rw [hint]
    dsimp only
    rw [if_neg (by omega : ¬ n < 3), if_neg (by omega : ¬ 20 < n)]
    exact ⟨rfl, rfl, rfl, rfl⟩
  · intro a t n hsplit hint hout
    unfold resolve_command
    rw [if_neg hstop, if_neg (by simp [hact]), if_neg (by simp [hplay]),
      if_neg hreset, if_pos hsd, hsplit]
    dsimp only
    rw [hint]
    dsimp only
    rcases hout with hlow | hhigh
    · rw [if_pos hlow]
      refine ⟨rfl, rfl, rfl, ?_⟩
      rw [if_pos hlow]
      rfl
    · rw [if_neg (by omega : ¬ n < 3), if_pos hhigh]
      refine ⟨rfl, rfl, rfl, ?_⟩
      rw [if_neg (by omega : ¬ n < 3)]
      rfl
  · intro a t hsplit hnone
    unfold resolve_command
    rw [if_neg hstop, if_neg (by simp [hact]), if_neg (by simp [hplay]),
      if_neg hreset, if_pos hsd, hsplit]
    dsimp only
    rw [hnone]
    exact ⟨rfl, rfl, rfl⟩
  · intro hno
    unfold resolve_command
    rw [if_neg hstop, if_neg (by simp [hact]), if_neg (by simp [hplay]),
      if_neg hreset, if_pos hsd]
    rcases hsp : splitWs cmd with _ | ⟨a, _ | ⟨b, _ | ⟨c, rest⟩⟩⟩
    · exact ⟨rfl, rfl, rfl⟩
    · exact ⟨rfl, rfl, rfl⟩
    · exact absurd hsp (hno a b)
    · exact ⟨rfl, rfl, rfl⟩

/-- C9 witness: the theorem applied to the fresh server with
`/set-delay 15`, `/set-delay 2` and `/set-delay abc`. -/
theorem C9_witness :
    (resolve_command initSys "/set-delay 15" "alice").game =
      { initSys.game with interval_time := 15 }
    ∧ (resolve_command initSys "/set-delay 2" "alice").game = initSys.game
    ∧ (resolve_command initSys "/set-delay abc" "alice").game = initSys.game :=
  ⟨((C9_set_delay initSys "/set-delay 15" "alice" (by decide) (by decide)
      (by decide) (by decide) (by decide)).1 "/set-delay" "15" 15
      (by decide) (by decide) (by decide) (by decide)).1,
   ((C9_set_delay initSys "/set-delay 2" "alice" (by decide) (by decide)
      (by decide) (by decide) (by decide)).2.1 "/set-delay" "2" 2
      (by decide) (by decide) (Or.inl (by decide))).1,
   ((C9_set_delay initSys "/set-delay abc" "alice" (by decide) (by decide)
      (by decide) (by decide) (by decide)).2.2.1 "/set-delay" "abc"
      (by decide) (by decide)).1⟩

/-- C10: for every cycle step, both drawn operands lie within the
difficulty bound (inclusive), the published question text is exactly the
two operands joined by the chosen sign, the stored pending answer is the
exact integer result of applying that operator, and the solved flag is
false (with the awaiting-answer flag set) when the question is
published. -/
theorem C10_question_publish (s : Sys) (r1 r2 r3 : Nat)
    (hb : s.game.bound.1 ≤ s.game.bound.2) :
    s.game.bound.1 ≤ randint s.game.bound.1 s.game.bound.2 r1
    ∧ randint s.game.bound.1 s.game.bound.2 r1 ≤ s.game.bound.2
    ∧ s.game.bound.1 ≤ randint s.game.bound.1 s.game.bound.2 r2
    ∧ randint s.game.bound.1 s.game.bound.2 r2 ≤ s.game.bound.2
    ∧ (proceed_game s r1 r2 r3).game.question =
        toString (randint s.game.bound.1 s.game.bound.2 r1) ++ " " ++
          (if r3 % 2 = 0 then "+" else "-") ++ " " ++
          toString (randint s.game.bound.1 s.game.bound.2 r2)
    ∧ (proceed_game s r1 r2 r3).game.answer =
        (if r3 % 2 = 0
         then randint s.game.bound.1 s.game.bound.2 r1 +
            randint s.game.bound.1 s.game.bound.2 r2
         else randint s.game.bound.1 s.game.bound.2 r1 -
            randint s.game.bound.1 s.game.bound.2 r2)
    ∧ (proceed_game s r1 r2 r3).game.solved = false
    ∧ (proceed_game s r1 r2 r3).game.check_answer = true := by
  obtain ⟨h1a, h1b⟩ := randint_bounds r1 hb
  obtain ⟨h2a, h2b⟩ := randint_bounds r2 hb
  exact ⟨h1a, h1b, h2a, h2b, rfl, rfl, rfl, rfl⟩

/-- C10 witness: the cycle-step theorem applied to the fresh server
(bound (0, 0)) with concrete oracle draws choosing subtraction. -/
theorem C10_witness :
    (proceed_game initSys 4 7 1).game.answer = randint 0 0 4 - randint 0 0 7 := by
  rw [(C10_question_publish initSys 4 7 1 (by decide)).2.2.2.2.2.1]
  decide

end PlusMinus
